import Mathlib

/-!
Verification development for the OUDS real-time orchestration layer
(frontend client in `ouds-frontend/src`).  The definitions below are a
shallow embedding of the client code in `App.jsx`, `CommandQueue.jsx` and
`lib/api.js`; where the repository snapshot does not include a piece of
the system (the backend queue worker and the `taskProgress.js` hook),
the corresponding definition is modelled from the design document and
says so in its doc comment.
-/

namespace OUDS

/-! ## Chat messages and client streaming state (App.jsx) -/

/-- One entry of the `messages` list kept by the `App` component.
`isError` mirrors the `isError` flag put on error / cancellation
messages. -/
structure ChatMsg where
  role : String
  content : String
  isError : Bool
deriving DecidableEq, Repr

/-- The slice of `App` component state touched by the streaming reader:
the `messages` list, the `streamingMessage` text and the `sessionId`. -/
structure StreamState where
  messages : List ChatMsg
  streamingMessage : String
  sessionId : Option String
deriving DecidableEq, Repr

def initialStreamState : StreamState :=
  { messages := [], streamingMessage := "", sessionId := none }

/-- A parsed JSON event of the chat stream, with the fields the client
reads: `type`, `partial` (spelt `isPartial` here), `content`,
`session_id`, `message`, plus a `text` field so that events of the shape
the design document describes (`chunk.text`) can be expressed. -/
structure RawEvent where
  type : String
  isPartial : Bool
  content : String
  text : String
  session_id : Option String
  message : String
deriving DecidableEq, Repr

/-- Embeds the event dispatch of `sendMessageWithStreaming`
(App.jsx lines 188-211) for one parsed event other than `complete`:
`progress` is logged only; a `partial` `response` replaces
`streamingMessage` with `data.content`; a non-partial `response` appends
an assistant message and clears `streamingMessage`; `error` throws
`new Error(data.message)`, which the surrounding
`catch (parseError)` of the same line handler swallows, so the state is
unchanged; any other type matches no branch. -/
def handleRaw (st : StreamState) (e : RawEvent) : StreamState :=
  if e.type = "progress" then st
  else if e.type = "response" then
    if e.isPartial then { st with streamingMessage := e.content }
    else
      { st with
        messages := st.messages ++ [⟨"assistant", e.content, false⟩],
        streamingMessage := "" }
  else if e.type = "error" then st
  else st

/-- Embeds `line.startsWith('data: ')` of App.jsx line 182, phrased on
the character data of the string. -/
def isDataLine (l : String) : Bool := "data: ".data.isPrefixOf l.data

/-- Embeds the per-chunk line loop of `sendMessageWithStreaming`
(App.jsx lines 181-216).  A line not starting with `"data: "` is
skipped; a line whose payload fails to parse (`parse` returns `none`,
the `JSON.parse` throw) is caught and skipped; a `complete` event
records `data.session_id` and `break`s out of the loop over the
remaining lines of this chunk; every other event is handled by
`handleRaw` and the loop continues. -/
def processLines (parse : String → Option RawEvent) (st : StreamState) :
    List String → StreamState
  | [] => st
  | l :: ls =>
    if isDataLine l then
      match parse (l.drop 6) with
      | none => processLines parse st ls
      | some e =>
        if e.type = "complete" then { st with sessionId := e.session_id }
        else processLines parse (handleRaw st e) ls
    else processLines parse st ls

/-- An event of the shape the design document's chat-stream contract
describes: `type = "chunk"` carrying a `text` fragment. -/
def chunkEvent (t : String) : RawEvent :=
  { type := "chunk", isPartial := false, content := "", text := t,
    session_id := none, message := "" }

/-- A concrete parse function for the counterexample: payload `"c1"`
parses to a chunk event with text `"Hel"`, payload `"c2"` to a chunk
event with text `"lo"`. -/
def demoParse : String → Option RawEvent := fun s =>
  if s = "c1" then some (chunkEvent "Hel")
  else if s = "c2" then some (chunkEvent "lo")
  else none

/-! ## Cancellation vs. error classification (App.jsx) -/

/-- The slice of `App` state touched by `cancelRequest` and by the
catch block of `sendMessageWithStreaming`. -/
structure ClientState where
  messages : List ChatMsg
  isLoading : Bool
  hasAbortController : Bool
deriving DecidableEq, Repr

/-- The cancellation message appended by `cancelRequest`
(App.jsx lines 109-115). -/
def cancelMessage : ChatMsg :=
  ⟨"assistant", "Operação cancelada pelo usuário.", true⟩

/-- Embeds `cancelRequest` (App.jsx lines 98-118): when an abort
controller is active it calls `controller.abort()`, clears the
controller and the loading flag, and appends the cancellation message;
otherwise it does nothing.  (The resets of the streaming text and of
the task list are outside the modelled slice.) -/
def cancelRequest (st : ClientState) : ClientState :=
  if st.hasAbortController then
    { st with
      hasAbortController := false
      isLoading := false
      messages := st.messages ++ [cancelMessage] }
  else st

/-- Embeds the catch block of `sendMessageWithStreaming`
(App.jsx lines 219-234): a failure named `AbortError` returns with no
message (the self-issued abort of `cancelRequest` is the only call
site of `controller.abort()` for the streaming request); any other
failure appends an error message. -/
def handleStreamFailure (st : ClientState) (errName errMsg : String) :
    ClientState :=
  if errName = "AbortError" then st
  else
    { st with messages :=
        st.messages ++ [⟨"assistant", "Erro na comunicação: " ++ errMsg, true⟩] }

/-! ## Send guards (App.jsx `sendMessageWithStreaming` / `sendMessage`) -/

/-- Embeds `!inputMessage.trim()` of App.jsx lines 121 and 246: a JS
string is falsy after `trim()` exactly when it consists of whitespace
only. -/
def isBlank (s : String) : Bool := s.data.all (fun c => c.isWhitespace)

/-- The slice of `App` state read and written when a send starts: the
`messages` list, the input field, the attached file (its rendered
description text) and the loading flag. -/
structure AppState where
  messages : List ChatMsg
  inputMessage : String
  attachedFile : Option String
  isLoading : Bool
deriving DecidableEq, Repr

/-- The user message built by `sendMessageWithStreaming`
(App.jsx lines 123-130): with an attached file the content is
`inputMessage || 'Arquivo enviado'` followed by the rendered attachment
description (abstracted here as the stored description string);
otherwise it is the input text. -/
def streamingUserMsg (st : AppState) : ChatMsg :=
  match st.attachedFile with
  | some desc =>
    ⟨"user",
      (if st.inputMessage = "" then "Arquivo enviado" else st.inputMessage)
        ++ desc, false⟩
  | none => ⟨"user", st.inputMessage, false⟩

/-- Embeds the entry of `sendMessageWithStreaming`
(App.jsx lines 120-137): the guard
`if ((!inputMessage.trim() && !attachedFile) || isLoading) return`
returns without any mutation and without issuing a request (the `Bool`
of the result); otherwise the user message is appended, the input is
cleared and the loading flag is set before the request is issued. -/
def sendMessageWithStreamingStart (st : AppState) : AppState × Bool :=
  if (isBlank st.inputMessage && st.attachedFile.isNone) || st.isLoading then
    (st, false)
  else
    ({ st with
       messages := st.messages ++ [streamingUserMsg st]
       inputMessage := ""
       isLoading := true }, true)

/-- Embeds the entry of `sendMessage` (App.jsx lines 245-258): the
guard `if (!inputMessage.trim() || isLoading) return` returns without
any mutation and without issuing a request; otherwise the user message
is appended, the input is cleared and the loading flag is set. -/
def sendMessageStart (st : AppState) : AppState × Bool :=
  if isBlank st.inputMessage || st.isLoading then (st, false)
  else
    ({ st with
       messages := st.messages ++ [⟨"user", st.inputMessage, false⟩]
       inputMessage := ""
       isLoading := true }, true)

/-! ## Backend health check (lib/api.js `checkBackendHealth`) -/

/-- The observable outcome of the `fetch` call inside
`checkBackendHealth`: either the promise rejects (network failure) or
an HTTP response with a status code and a body text arrives. -/
inductive FetchOutcome where
  | networkError (msg : String)
  | httpResponse (status : Nat) (body : String)
deriving DecidableEq, Repr

/-- `Response.ok` of the Fetch standard: status in the range 200-299. -/
def responseOk (status : Nat) : Bool := 200 ≤ status && status ≤ 299

/-- The value returned by `checkBackendHealth`. -/
structure HealthResult where
  status : String
  data : Option String
  statusCode : Option Nat
  error : Option String
deriving DecidableEq, Repr

/-- Embeds `checkBackendHealth` (lib/api.js lines 150-168): a response
that is ok or has status 404 yields `status: 'ok'` with the body and
the status code; any other status throws `HTTP <status>`, which the
surrounding catch converts — like a network failure — into
`status: 'error'` with the failure message.  The function is total:
every outcome is mapped to a result, nothing escapes. -/
def checkBackendHealth (o : FetchOutcome) : HealthResult :=
  match o with
  | .networkError m =>
    { status := "error", data := none, statusCode := none, error := some m }
  | .httpResponse s body =>
    if responseOk s || s == 404 then
      { status := "ok", data := some body, statusCode := some s, error := none }
    else
      { status := "error", data := none, statusCode := none,
        error := some ("HTTP " ++ toString s) }

/-! ## Command queue status (CommandQueue.jsx, backend queue) -/

/-- A queued Command as rendered by `CommandQueue.jsx` (fields `id`,
`message`, `status`, `created_at` are the ones the component reads). -/
structure Command where
  id : Nat
  message : String
  status : String
  created_at : Nat
deriving DecidableEq, Repr

/-- The per-session queue state of the design document: the Command
being processed (if any) and the FIFO pending list. -/
structure QueueState where
  processingCmd : Option Command
  pending : List Command
deriving DecidableEq, Repr

/-- Modelled from the spec: the backend Command Queue's status
operation — the backend implementation is not part of the repository
snapshot — which per the design document ("status() -> processing,
pending[], totalPending is a pure read") returns the processing
Command, the pending list and the pending count, and leaves the queue
state untouched. -/
def queueStatus (q : QueueState) :
    QueueState × (Option Command × List Command × Nat) :=
  (q, (q.processingCmd, q.pending, q.pending.length))

/-- A field value of the queue-status JSON response, at the
granularity the client consumes it. -/
inductive QField where
  | fNull
  | fCommand (c : Command)
  | fCommandList (cs : List Command)
  | fNat (n : Nat)
deriving DecidableEq, Repr

/-- First-match key lookup in a JSON object, as JS property access on
the parsed response object. -/
def lookupField (resp : List (String × QField)) (k : String) : Option QField :=
  match resp with
  | [] => none
  | (k', v) :: rest => if k' = k then some v else lookupField rest k

/-- Embeds line 97 of `CommandQueue.jsx`: the component destructures
the fetched queue-status object into the properties `queue`,
`current_processing` and `total_pending` — these three property names,
in this spelling, are what the client consumes. -/
def clientQueueView (resp : List (String × QField)) :
    Option QField × Option QField × Option QField :=
  (lookupField resp "current_processing",
   lookupField resp "queue",
   lookupField resp "total_pending")

/-- Modelled from the spec: the wire encoding of the queue status —
the backend serializer is not part of the repository snapshot — with
the field spellings that `CommandQueue.jsx` line 97 consumes
(`current_processing`, `queue`, `total_pending`). -/
def encodeQueueStatus (q : QueueState) : List (String × QField) :=
  [ ("current_processing",
      match q.processingCmd with
      | some c => QField.fCommand c
      | none => QField.fNull),
    ("queue", QField.fCommandList q.pending),
    ("total_pending", QField.fNat q.pending.length) ]

/-- The queue-status response shape stated by the design document
(`processing` / `queue` / `totalPending`), built for an empty queue:
used to show the client's destructuring does not read these keys. -/
def specShapedStatus : List (String × QField) :=
  [ ("processing", QField.fNull),
    ("queue", QField.fCommandList []),
    ("totalPending", QField.fNat 0) ]

/-! ## Queue-status polling (CommandQueue.jsx) -/

/-- The polling period passed to
`setInterval(fetchQueueStatus, 2000)` (CommandQueue.jsx line 13). -/
def queuePollIntervalMs : Nat := 2000

/-- The occurrences on which `CommandQueue.jsx` may run
`fetchQueueStatus`, plus an inbound server push, for which the
component registers no handler at all. -/
inductive QueueTrigger where
  | viewActivated
  | intervalTick
  | manualRefresh
  | cancelSucceeded
  | serverPush
deriving DecidableEq, Repr

/-- Embeds the call sites of `fetchQueueStatus` in `CommandQueue.jsx`:
the effect body when `isVisible && sessionId` becomes truthy
(line 11), the 2000 ms interval (line 13), the footer refresh button
(line 192), and `cancelCommand` after a successful DELETE (line 46).
No push channel exists: an inbound push triggers nothing. -/
def triggersFetch : QueueTrigger → Bool
  | .viewActivated => true
  | .intervalTick => true
  | .manualRefresh => true
  | .cancelSucceeded => true
  | .serverPush => false

/-- One step of the component's `queueData` state: a trigger that runs
`fetchQueueStatus` replaces `queueData` with an ok fetch result
(`setQueueData(data)`, line 27) and keeps it on a failed fetch
(lines 28-32); any other occurrence leaves `queueData` alone —
`setQueueData` has no other call site. -/
def queueCompStep (st : Option (List (String × QField))) (t : QueueTrigger)
    (result : Option (List (String × QField))) :
    Option (List (String × QField)) :=
  if triggersFetch t then
    match result with
    | some d => some d
    | none => st
  else st

/-! ## Request timeout (App.jsx `sendMessage`) -/

/-- The timeout passed to `setTimeout(..., 60000)` in `sendMessage`
(App.jsx line 281). -/
def requestTimeoutMs : Nat := 60000

/-- One chat request as observed by the timer of `sendMessage`: when
(in ms after the request started) the awaited response arrived, if
ever, and at which times progress events reached the client over the
separate WebSocket channel. -/
structure ChatRequestRun where
  responseAt : Option Nat
  progressTimes : List Nat
deriving DecidableEq, Repr

/-- Embeds the timer of `sendMessage` (App.jsx lines 277-295): the
abort fires 60000 ms after the request starts unless
`clearTimeout` ran first, i.e. unless the awaited response arrived
within the window.  The timer is started once and never reset; no code
path connects the progress WebSocket to it. -/
def timerAborts (r : ChatRequestRun) : Bool :=
  match r.responseAt with
  | some t => decide (requestTimeoutMs < t)
  | none => true

/-- A run in which progress events keep arriving every 10 s (every gap,
including the one from the request start, is far below 60 s) while the
response itself is still outstanding. -/
def steadyProgressRun : ChatRequestRun :=
  { responseAt := none,
    progressTimes := [10000, 20000, 30000, 40000, 50000, 60000, 70000, 80000] }

/-! ## Client reconnection state machine

The hook `useTaskProgressWebSocket` lives in `lib/taskProgress.js`,
which is not part of the repository snapshot (App.jsx line 7 imports
it); the machine below is modelled from the design document,
section 4.5. -/

/-- The connection phases of the design document's reconnection state
machine. -/
inductive ConnPhase where
  | disconnected
  | connecting
  | connected
  | reconnecting
  | failed
deriving DecidableEq, Repr

/-- A reconnection-machine state: the phase together with the count of
reconnection attempts made since the last successful connection. -/
structure ReconnState where
  phase : ConnPhase
  attempt : Nat
deriving DecidableEq, Repr

/-- Reconnection configuration: the bounded attempt count and the base
delay of the linear backoff. -/
structure ReconnConfig where
  maxAttempts : Nat
  baseDelayMs : Nat
deriving DecidableEq, Repr

/-- Phases from which a drop triggers a reconnection attempt (an
established or in-progress connection). -/
def activePhase : ConnPhase → Bool
  | .connected => true
  | .connecting => true
  | .reconnecting => true
  | .disconnected => false
  | .failed => false

/-- Modelled from the spec: one connection drop
(`lib/taskProgress.js` is not part of the repository snapshot).  Per
section 4.5, a drop moves the machine to Reconnecting and schedules a
retry after `attempt * baseDelay` for the incremented attempt count,
as long as the bounded attempt count is not exceeded; exceeding it
moves the machine to Failed, after which no retry is ever scheduled.
The second component is the scheduled retry delay, if any. -/
def onDrop (cfg : ReconnConfig) (s : ReconnState) : ReconnState × Option Nat :=
  if activePhase s.phase then
    let a := s.attempt + 1
    if a ≤ cfg.maxAttempts then
      ({ phase := .reconnecting, attempt := a }, some (a * cfg.baseDelayMs))
    else ({ phase := .failed, attempt := s.attempt }, none)
  else (s, none)

/-- Modelled from the spec: a successful (re)connection returns the
machine to Connected and resets the attempt count. -/
def onConnectOk (s : ReconnState) : ReconnState :=
  if activePhase s.phase then { phase := .connected, attempt := 0 } else s

/-- Drives `n` consecutive connection drops (each reconnection attempt
drops again before succeeding) and collects the scheduled retry
delays in order. -/
def runDrops (cfg : ReconnConfig) : Nat → ReconnState → ReconnState × List Nat
  | 0, s => (s, [])
  | n + 1, s =>
    let step := onDrop cfg s
    let rest := runDrops cfg n step.1
    (rest.1, step.2.toList ++ rest.2)

/-- The machine state at the start of a drop sequence: connected, no
attempt made yet. -/
def initialConn : ReconnState := { phase := .connected, attempt := 0 }

/-! ## Client task aggregation

Also part of `lib/taskProgress.js` (not in the repository snapshot);
modelled from the design document, section 4.5: ProgressEvents fold
into an ordered list of Task aggregates keyed by `step_index`. -/

/-- Task status of the client aggregate (`running` / `completed` /
`error` are the statuses the App.jsx and TaskProgress.jsx renderers
dispatch on). -/
inductive TaskStatus where
  | running
  | completed
  | errored
deriving DecidableEq, Repr

/-- A client-side Task aggregate: keyed by the step index, enriched by
thinking / tool / token events while open. -/
structure Task where
  step : Nat
  status : TaskStatus
  thoughts : Option String
  tools : List String
  tokens : Option Nat
  errorMsg : Option String
deriving DecidableEq, Repr

/-- The ProgressEvent shapes the client folds (section 3 of the design
document), at the granularity the fold reads them. -/
inductive ProgressEvent where
  | step_start (i : Nat)
  | thinking (s : String)
  | tool_execution (t : String)
  | token_usage (n : Nat)
  | step_complete
  | error_event (m : String)
deriving DecidableEq, Repr

/-- The fresh Task opened by `step_start`. -/
def newTask (i : Nat) : Task :=
  { step := i, status := .running, thoughts := none, tools := [],
    tokens := none, errorMsg := none }

/-- The client's task-list state: the ordered Task list and the step
index of the currently open Task, if any. -/
structure TaskBoard where
  tasks : List Task
  openStep : Option Nat
deriving DecidableEq, Repr

/-- Applies an update to the currently open Task (the one whose step
index is the open one and whose status is still `running`); with no
open step nothing changes. -/
def enrichOpen (b : TaskBoard) (f : Task → Task) : TaskBoard :=
  match b.openStep with
  | none => b
  | some i =>
    let upd := fun t => if t.step = i ∧ t.status = .running then f t else t
    { b with tasks := b.tasks.map upd }

/-- Closes the currently open Task by setting the given terminal
status (and error message, for `error`); the open step is cleared
either way. -/
def closeOpen (b : TaskBoard) (st : TaskStatus) (m : Option String) :
    TaskBoard :=
  match b.openStep with
  | none => b
  | some i =>
    let upd := fun t =>
      if t.step = i ∧ t.status = .running then
        { t with status := st, errorMsg := m }
      else t
    { tasks := b.tasks.map upd, openStep := none }

/-- Modelled from the spec: the client's fold of one ProgressEvent
(`lib/taskProgress.js` is not part of the repository snapshot).  Per
section 4.5: `step_start` opens a new Task; `thinking` /
`tool_execution` / `token_usage` enrich the currently open Task;
`step_complete` closes it; `error` marks the open Task as errored and
terminal — a Task that has left `running` is never touched again. -/
def foldEvent (b : TaskBoard) (e : ProgressEvent) : TaskBoard :=
  match e with
  | .step_start i => { tasks := b.tasks ++ [newTask i], openStep := some i }
  | .thinking s => enrichOpen b (fun t => { t with thoughts := some s })
  | .tool_execution tl => enrichOpen b (fun t => { t with tools := t.tools ++ [tl] })
  | .token_usage n => enrichOpen b (fun t => { t with tokens := some n })
  | .step_complete => closeOpen b .completed none
  | .error_event m => closeOpen b .errored (some m)

/-- Folds a whole event sequence. -/
def foldEvents (b : TaskBoard) (es : List ProgressEvent) : TaskBoard :=
  es.foldl foldEvent b

/-- A concrete `complete` stream event carrying a session id. -/
def completeEvent : RawEvent :=
  { type := "complete", isPartial := false, content := "", text := "",
    session_id := some "s1", message := "" }

/-- A concrete parse function mapping payload `"k"` to `completeEvent`. -/
def completeParse : String → Option RawEvent := fun s =>
  if s = "k" then some completeEvent else none

/-- A concrete Task already marked errored, used to evaluate the
terminality property. -/
def erroredTask : Task :=
  { step := 0, status := .errored, thoughts := none, tools := [],
    tokens := none, errorMsg := some "boom" }

/-! ## Theorems -/

/-- C10: `checkBackendHealth` never throws — every fetch outcome maps
to a result — and the result has status "ok" exactly when an HTTP
response arrived that is ok or has status 404 (404 counts as the
backend being healthy); every other status and every network failure
yields status "error" with the failure message. -/
theorem checkBackendHealth_total_and_classifies (o : FetchOutcome) :
    ((checkBackendHealth o).status = "ok" ∨
      (checkBackendHealth o).status = "error") ∧
    ((checkBackendHealth o).status = "ok" ↔
      ∃ s body, o = .httpResponse s body ∧ (responseOk s || s == 404) = true) ∧
    (∀ m, o = .networkError m →
      checkBackendHealth o =
        { status := "error", data := none, statusCode := none,
          error := some m }) := by
  rcases o with m | ⟨s, body⟩
  · refine ⟨Or.inr rfl, ?_, ?_⟩
    · simp [checkBackendHealth]
    · intro m' hm
      cases hm
      rfl
  · by_cases h : (responseOk s || s == 404) = true
    · refine ⟨Or.inl ?_, ?_, ?_⟩
      · simp [checkBackendHealth, h]
      · simp [checkBackendHealth, h]
        simpa using h
      · intro m hm
        cases hm
    · refine ⟨Or.inr ?_, ?_, ?_⟩
      · simp [checkBackendHealth, h]
      · simp [checkBackendHealth, h]
        simpa using h
      · intro m hm
        cases hm

/-- Witness for C10 at concrete outcomes: a 404 response is healthy
and a network failure yields an error result. -/
theorem checkBackendHealth_total_and_classifies_witness :
    (checkBackendHealth (.httpResponse 404 "nf")).status = "ok" ∧
    checkBackendHealth (.networkError "down") =
      { status := "error", data := none, statusCode := none,
        error := some "down" } :=
  ⟨(checkBackendHealth_total_and_classifies (.httpResponse 404 "nf")).2.1.mpr
      ⟨404, "nf", rfl, by decide⟩,
   (checkBackendHealth_total_and_classifies
      (.networkError "down")).2.2 "down" rfl⟩

/-- C8: while a request is in flight (`isLoading`), or when the input
is blank and no file is attached, both `sendMessageWithStreaming` and
`sendMessage` return at their guard: no request is issued and no state
— in particular the message list — is mutated, so the client never
has two chat requests in flight at once. -/
theorem send_guards_block_reentry_and_blank (st : AppState)
    (h : st.isLoading = true ∨
      (isBlank st.inputMessage = true ∧ st.attachedFile = none)) :
    sendMessageWithStreamingStart st = (st, false) ∧
    sendMessageStart st = (st, false) := by
  rcases h with h | ⟨hb, hf⟩
  · constructor
    · simp [sendMessageWithStreamingStart, h]
    · simp [sendMessageStart, h]
  · constructor
    · simp [sendMessageWithStreamingStart, hb, hf]
    · simp [sendMessageStart, hb]

/-- Witness for C8: a loading state and a blank-input state are both
blocked. -/
theorem send_guards_block_reentry_and_blank_witness :
    (sendMessageWithStreamingStart ⟨[], "hi", none, true⟩ =
        (⟨[], "hi", none, true⟩, false) ∧
      sendMessageStart ⟨[], "hi", none, true⟩ =
        (⟨[], "hi", none, true⟩, false)) ∧
    (sendMessageWithStreamingStart ⟨[], "  ", none, false⟩ =
        (⟨[], "  ", none, false⟩, false) ∧
      sendMessageStart ⟨[], "  ", none, false⟩ =
        (⟨[], "  ", none, false⟩, false)) :=
  ⟨send_guards_block_reentry_and_blank ⟨[], "hi", none, true⟩ (Or.inl rfl),
   send_guards_block_reentry_and_blank ⟨[], "  ", none, false⟩
     (Or.inr ⟨by decide, rfl⟩)⟩

/-- C9: a stream line that does not start with `data: ` is silently
skipped, and a `data: ` line whose payload does not parse as JSON is
caught and skipped; in both cases the read loop simply continues with
the remaining lines (no state change, no error surfaced). -/
theorem malformed_stream_lines_skipped
    (parse : String → Option RawEvent) (st : StreamState) (l : String)
    (ls : List String) :
    (isDataLine l = false →
      processLines parse st (l :: ls) = processLines parse st ls) ∧
    (parse (l.drop 6) = none →
      processLines parse st (l :: ls) = processLines parse st ls) := by
  constructor
  · intro h
    simp [processLines, h]
  · intro h
    by_cases hd : isDataLine l
    · simp [processLines, hd, h]
    · simp [processLines, hd]

/-- Witness for C9: a non-`data: ` line and an unparseable payload are
both skipped on concrete input. -/
theorem malformed_stream_lines_skipped_witness :
    processLines (fun _ => none) initialStreamState ["event: x"] =
      processLines (fun _ => none) initialStreamState [] ∧
    processLines (fun _ => none) initialStreamState ["data: zz"] =
      processLines (fun _ => none) initialStreamState [] :=
  ⟨(malformed_stream_lines_skipped (fun _ => none) initialStreamState
      "event: x" []).1 (by decide),
   (malformed_stream_lines_skipped (fun _ => none) initialStreamState
      "data: zz" []).2 rfl⟩

/-- C4: the consumer classifies a terminated stream as cancelled
rather than failed exactly by having itself issued the abort: the
self-issued abort of `cancelRequest` records the cancellation message,
an `AbortError` termination leaves the message list untouched (the
error path is suppressed), and every other failure appends an error
message. -/
theorem cancelled_vs_error_outcome (st : ClientState) (n m : String) :
    (st.hasAbortController = true →
      (cancelRequest st).messages = st.messages ++ [cancelMessage]) ∧
    ((handleStreamFailure st n m).messages = st.messages ↔
      n = "AbortError") := by
  constructor
  · intro h
    simp [cancelRequest, h]
  · by_cases hn : n = "AbortError"
    · simp [handleStreamFailure, hn]
    · simp [handleStreamFailure, hn]

/-- Witness for C4: with an active abort controller the cancellation
message is recorded, an AbortError termination adds nothing, and a
network failure adds an error message. -/
theorem cancelled_vs_error_outcome_witness :
    (cancelRequest ⟨[], true, true⟩).messages = [] ++ [cancelMessage] ∧
    (handleStreamFailure ⟨[], true, true⟩ "AbortError" "x").messages = [] ∧
    ¬ (handleStreamFailure ⟨[], true, true⟩ "TypeError" "x").messages = [] :=
  ⟨(cancelled_vs_error_outcome ⟨[], true, true⟩ "n" "m").1 rfl,
   (cancelled_vs_error_outcome ⟨[], true, true⟩ "AbortError" "x").2.mpr rfl,
   fun h =>
     absurd ((cancelled_vs_error_outcome ⟨[], true, true⟩ "TypeError" "x").2.mp h)
       (by decide)⟩

/-- C7 counterexample: in `steadyProgressRun` every gap between
consecutive progress signals (including from the request start) is
10000 ms, far below the 60-second window — the command keeps emitting
progress — yet the client's only 60-second mechanism, the
`sendMessage` timer, aborts the request. -/
theorem steady_progress_still_aborted :
    List.Chain' (fun a b => b - a < requestTimeoutMs)
      (0 :: steadyProgressRun.progressTimes) ∧
    timerAborts steadyProgressRun = true := by
  refine ⟨?_, rfl⟩
  simp [steadyProgressRun, List.chain'_cons, requestTimeoutMs]

/-- C7 (amended): the 60-second mechanism in the client is a fixed
whole-request timeout in `sendMessage`: the request is aborted exactly
when the awaited response has not arrived within 60000 ms of the
request start, entirely independent of which progress events arrive
meanwhile; the abort cancels the client request and advances no
queue. -/
theorem request_timeout_is_fixed_window (r : ChatRequestRun)
    (ps : List Nat) :
    (timerAborts r = true ↔
      (r.responseAt = none ∨
        ∃ t, r.responseAt = some t ∧ requestTimeoutMs < t)) ∧
    timerAborts { r with progressTimes := ps } = timerAborts r := by
  rcases r with ⟨ra, pts⟩
  rcases ra with _ | t
  · simp [timerAborts]
  · simp [timerAborts]

/-- Witness for C7 (amended): a response arriving after 70 s is
aborted, and the timer's verdict ignores the progress-event times. -/
theorem request_timeout_is_fixed_window_witness :
    timerAborts ⟨some 70000, []⟩ = true ∧
    timerAborts ⟨some 70000, [1, 2, 3]⟩ = timerAborts ⟨some 70000, []⟩ :=
  ⟨(request_timeout_is_fixed_window ⟨some 70000, []⟩ []).1.mpr
      (Or.inr ⟨70000, rfl, by decide⟩),
   (request_timeout_is_fixed_window ⟨some 70000, []⟩ [1, 2, 3]).2⟩

/-- C5 counterexample: `cancelCommand` re-fetches the queue status
after a successful DELETE (CommandQueue.jsx line 46) — an update
mechanism that is neither the 2-second interval tick nor the manual
refresh button, refuting "no other mechanism updates it". -/
theorem cancel_refetch_is_another_mechanism :
    triggersFetch .cancelSucceeded = true ∧
    QueueTrigger.cancelSucceeded ≠ QueueTrigger.intervalTick ∧
    QueueTrigger.cancelSucceeded ≠ QueueTrigger.manualRefresh := by decide

/-- C5 (amended): the queue view is pull-only — an inbound push
changes nothing, the component registers no push handler — and the
client re-fetches on view activation, on the fixed 2000 ms interval,
on explicit manual refresh, and after a successful cancel; `queueData`
changes only through an ok fetch result. -/
theorem queue_status_pull_only (st : Option (List (String × QField)))
    (t : QueueTrigger) (d : List (String × QField)) :
    queuePollIntervalMs = 2000 ∧
    queueCompStep st .serverPush (some d) = st ∧
    (triggersFetch t = true ↔
      (t = .viewActivated ∨ t = .intervalTick ∨ t = .manualRefresh ∨
        t = .cancelSucceeded)) ∧
    (triggersFetch t = true → queueCompStep st t (some d) = some d) ∧
    (queueCompStep st t none = st) := by
  cases t <;>
    simp [queueCompStep, triggersFetch, queuePollIntervalMs]

/-- Witness for C5 (amended): a concrete interval tick replaces the
component's data with the fetched value, and a push leaves it as is. -/
theorem queue_status_pull_only_witness :
    queueCompStep none QueueTrigger.intervalTick (some []) = some [] ∧
    queueCompStep (some []) QueueTrigger.serverPush (some []) = some [] :=
  ⟨(queue_status_pull_only none .intervalTick []).2.2.2.1 rfl,
   (queue_status_pull_only (some []) .serverPush []).2.1⟩

/-- C2 counterexample: on a response carrying exactly the keys the
claim states — `processing`, `queue`, `totalPending` — the client's
destructuring (CommandQueue.jsx line 97) reads nothing for its
processing slot and its pending count: the consumed shape spells those
keys differently. -/
theorem spec_shaped_status_unreadable :
    lookupField specShapedStatus "processing" = some QField.fNull ∧
    lookupField specShapedStatus "totalPending" = some (QField.fNat 0) ∧
    clientQueueView specShapedStatus =
      (none, some (QField.fCommandList []), none) := by decide

/-- C2 (amended): the queue-status read is a pure read — the
spec-modelled status operation returns the queue state unchanged — and
the value the client consumes spells its fields `current_processing`
(Command or null), `queue` (Command list) and `total_pending` (the
pending count): on the status encoding of any queue state the client's
destructuring recovers all three. -/
theorem queue_status_pure_and_client_shape (q : QueueState) :
    (queueStatus q).1 = q ∧
    clientQueueView (encodeQueueStatus q) =
      (some (match q.processingCmd with
             | some c => QField.fCommand c
             | none => QField.fNull),
       some (QField.fCommandList q.pending),
       some (QField.fNat q.pending.length)) :=
  ⟨rfl, rfl⟩

/-- Witness for C2 (amended): evaluated on a one-command queue. -/
theorem queue_status_pure_and_client_shape_witness :
    (queueStatus ⟨some ⟨1, "hello", "processing", 0⟩, []⟩).1 =
      ⟨some ⟨1, "hello", "processing", 0⟩, []⟩ ∧
    clientQueueView (encodeQueueStatus ⟨some ⟨1, "hello", "processing", 0⟩, []⟩) =
      (some (QField.fCommand ⟨1, "hello", "processing", 0⟩),
       some (QField.fCommandList []), some (QField.fNat 0)) :=
  queue_status_pure_and_client_shape ⟨some ⟨1, "hello", "processing", 0⟩, []⟩

/-- C1 counterexample: a stream of two `chunk` events carrying the
texts "Hel" and "lo" leaves the client state untouched — the dispatch
of `sendMessageWithStreaming` has no `chunk` branch — so the displayed
text is not the concatenation "Hello" the claim prescribes. -/
theorem chunk_concatenation_refuted :
    processLines demoParse initialStreamState ["data: c1", "data: c2"] =
      initialStreamState ∧
    (processLines demoParse initialStreamState
        ["data: c1", "data: c2"]).streamingMessage ≠ "Hel" ++ "lo" := by
  decide

/-- C1 (amended): the chat stream is consumed as `data: `-prefixed
line-delimited JSON events whose type ranges over `progress`,
`response`, `complete` and `error`; the client displays text by
replacing the streaming message with each partial `response` event's
`content` (no concatenation), appends a non-partial `response` as the
assistant message and clears the streaming text, records the session
id at `complete` and stops the line loop, and changes nothing on
`progress`, on `error` (whose throw the per-line catch swallows) and
on unrecognized types. -/
theorem chat_stream_dispatch (st : StreamState) (e : RawEvent)
    (parse : String → Option RawEvent) (l : String) (ls : List String) :
    (e.type = "progress" → handleRaw st e = st) ∧
    (e.type = "response" → e.isPartial = true →
      handleRaw st e = { st with streamingMessage := e.content }) ∧
    (e.type = "response" → e.isPartial = false →
      handleRaw st e =
        { st with
          messages := st.messages ++ [⟨"assistant", e.content, false⟩]
          streamingMessage := "" }) ∧
    (e.type = "error" → handleRaw st e = st) ∧
    (isDataLine l = true → parse (l.drop 6) = some e →
      e.type = "complete" →
      processLines parse st (l :: ls) =
        { st with sessionId := e.session_id }) := by
  refine ⟨?_, ?_, ?_, ?_, ?_⟩
  · intro h
    simp [handleRaw, h]
  · intro h hp
    simp [handleRaw, h, hp]
  · intro h hp
    simp [handleRaw, h, hp]
  · intro h
    simp [handleRaw, h]
  · intro hd hp ht
    simp [processLines, hd, hp, ht]

/-- Witness for C1 (amended): a concrete `data: `-line parsing to a
`complete` event records its session id. -/
theorem chat_stream_dispatch_witness :
    processLines completeParse initialStreamState ["data: k", "data: zz"] =
      { initialStreamState with sessionId := some "s1" } :=
  (chat_stream_dispatch initialStreamState completeEvent completeParse
      "data: k" ["data: zz"]).2.2.2.2 (by decide) (by decide) rfl

/-- Helper: a Task that is no longer running survives `enrichOpen`
untouched. -/
theorem nonrunning_mem_enrichOpen (b : TaskBoard) (f : Task → Task)
    (t : Task) (ht : t ∈ b.tasks) (hs : t.status ≠ .running) :
    t ∈ (enrichOpen b f).tasks := by
  obtain ⟨tasks, op⟩ := b
  cases op with
  | none => simpa [enrichOpen] using ht
  | some i =>
    simp only [enrichOpen]
    exact List.mem_map.mpr ⟨t, by simpa using ht, by simp [hs]⟩

/-- Helper: a Task that is no longer running survives `closeOpen`
untouched. -/
theorem nonrunning_mem_closeOpen (b : TaskBoard) (s : TaskStatus)
    (m : Option String) (t : Task) (ht : t ∈ b.tasks)
    (hs : t.status ≠ .running) : t ∈ (closeOpen b s m).tasks := by
  obtain ⟨tasks, op⟩ := b
  cases op with
  | none => simpa [closeOpen] using ht
  | some i =>
    simp only [closeOpen]
    exact List.mem_map.mpr ⟨t, by simpa using ht, by simp [hs]⟩

/-- Helper: a Task that is no longer running survives any single
ProgressEvent untouched. -/
theorem nonrunning_mem_foldEvent (b : TaskBoard) (e : ProgressEvent)
    (t : Task) (ht : t ∈ b.tasks) (hs : t.status ≠ .running) :
    t ∈ (foldEvent b e).tasks := by
  cases e with
  | step_start i =>
    simp only [foldEvent]
    exact List.mem_append_left _ ht
  | thinking s => exact nonrunning_mem_enrichOpen b _ t ht hs
  | tool_execution tl => exact nonrunning_mem_enrichOpen b _ t ht hs
  | token_usage n => exact nonrunning_mem_enrichOpen b _ t ht hs
  | step_complete => exact nonrunning_mem_closeOpen b _ _ t ht hs
  | error_event m => exact nonrunning_mem_closeOpen b _ _ t ht hs

/-- Helper: an errored Task survives any sequence of later events
untouched. -/
theorem errored_mem_foldEvents (b : TaskBoard) (es : List ProgressEvent)
    (t : Task) (ht : t ∈ b.tasks) (hs : t.status = .errored) :
    t ∈ (foldEvents b es).tasks := by
  induction es generalizing b with
  | nil => simpa [foldEvents] using ht
  | cons e es ih =>
    have hstep : t ∈ (foldEvent b e).tasks :=
      nonrunning_mem_foldEvent b e t ht (by simp [hs])
    simpa [foldEvents] using ih (foldEvent b e) hstep

/-- C6: folding ProgressEvents into the Task list: `step_start` opens
a new running Task keyed by its step index; `thinking` /
`tool_execution` / `token_usage` enrich the currently open running
Task; `step_complete` closes it; `error` marks it errored and
terminal — an errored Task is never mutated by any later event, and
tasks no longer running are untouched by enrichment and closing. -/
theorem progress_events_fold (b : TaskBoard) (i n : Nat) (s tl m : String)
    (es : List ProgressEvent) (t : Task) :
    foldEvent b (.step_start i) =
      { tasks := b.tasks ++ [newTask i], openStep := some i } ∧
    (b.openStep = some i → t ∈ b.tasks → t.step = i →
      t.status = .running →
      ({ t with thoughts := some s } ∈
          (foldEvent b (.thinking s)).tasks ∧
        { t with tools := t.tools ++ [tl] } ∈
          (foldEvent b (.tool_execution tl)).tasks ∧
        { t with tokens := some n } ∈
          (foldEvent b (.token_usage n)).tasks ∧
        { t with status := .completed, errorMsg := none } ∈
          (foldEvent b .step_complete).tasks ∧
        { t with status := .errored, errorMsg := some m } ∈
          (foldEvent b (.error_event m)).tasks)) ∧
    (foldEvent b .step_complete).openStep = none ∧
    (foldEvent b (.error_event m)).openStep = none ∧
    (t ∈ b.tasks → t.status ≠ .running →
      t ∈ (foldEvent b (.thinking s)).tasks ∧
        t ∈ (foldEvent b (.tool_execution tl)).tasks ∧
        t ∈ (foldEvent b (.token_usage n)).tasks ∧
        t ∈ (foldEvent b .step_complete).tasks) ∧
    (t ∈ b.tasks → t.status = .errored → t ∈ (foldEvents b es).tasks) := by
  refine ⟨rfl, ?_, ?_, ?_, ?_, ?_⟩
  · intro hop ht hstep hrun
    obtain ⟨tasks, op⟩ := b
    cases hop
    simp only [foldEvent, enrichOpen, closeOpen] at *
    refine ⟨?_, ?_, ?_, ?_, ?_⟩ <;>
      exact List.mem_map.mpr ⟨t, by simpa using ht, by simp [hstep, hrun]⟩
  · obtain ⟨tasks, op⟩ := b
    cases op <;> rfl
  · obtain ⟨tasks, op⟩ := b
    cases op <;> rfl
  · intro ht hs
    exact ⟨nonrunning_mem_enrichOpen b _ t ht hs,
      nonrunning_mem_enrichOpen b _ t ht hs,
      nonrunning_mem_enrichOpen b _ t ht hs,
      nonrunning_mem_closeOpen b _ _ t ht hs⟩
  · intro ht hs
    exact errored_mem_foldEvents b es t ht hs

/-- Witness for C6: `step_start` opens a Task on an empty board, and a
concrete errored Task survives a later step of events. -/
theorem progress_events_fold_witness :
    foldEvent ⟨[], none⟩ (.step_start 0) =
      { tasks := [newTask 0], openStep := some 0 } ∧
    erroredTask ∈
      (foldEvents ⟨[erroredTask], none⟩
        [.step_start 1, .thinking "x", .step_complete]).tasks :=
  ⟨(progress_events_fold ⟨[], none⟩ 0 0 "x" "t" "m" [] erroredTask).1,
   (progress_events_fold ⟨[erroredTask], none⟩ 0 0 "x" "t" "m"
      [.step_start 1, .thinking "x", .step_complete]
      erroredTask).2.2.2.2.2 (by decide) rfl⟩

/-- Helper: from the Failed phase, drops change nothing and schedule
nothing. -/
theorem runDrops_failed (cfg : ReconnConfig) (n a : Nat) :
    runDrops cfg n ⟨.failed, a⟩ = (⟨.failed, a⟩, []) := by
  induction n with
  | zero => rfl
  | succ n ih => simp [runDrops, onDrop, activePhase, ih]

/-- Helper: closed form of the scheduled retry delays for a run of
consecutive drops starting from an active phase with `a` attempts
already made. -/
theorem runDrops_delays_closed (cfg : ReconnConfig) :
    ∀ (n : Nat) (p : ConnPhase) (a : Nat), activePhase p = true →
      a ≤ cfg.maxAttempts →
      (runDrops cfg n ⟨p, a⟩).2 =
        (List.range (min n (cfg.maxAttempts - a))).map
          (fun k => (a + 1 + k) * cfg.baseDelayMs) := by
  intro n
  induction n with
  | zero =>
    intro p a hp ha
    simp [runDrops]
  | succ n ih =>
    intro p a hp ha
    by_cases h : a + 1 ≤ cfg.maxAttempts
    · have hstep : onDrop cfg ⟨p, a⟩ =
          (⟨.reconnecting, a + 1⟩, some ((a + 1) * cfg.baseDelayMs)) := by
        simp [onDrop, hp, h]
      have hmin : min (n + 1) (cfg.maxAttempts - a) =
          min n (cfg.maxAttempts - (a + 1)) + 1 := by omega
      simp only [runDrops, hstep, ih .reconnecting (a + 1) rfl h, hmin,
        List.range_succ_eq_map, List.map_cons, List.map_map,
        Option.toList_some, List.singleton_append]
      have hmap : ((fun k => (a + 1 + k) * cfg.baseDelayMs) ∘ Nat.succ) =
          fun k => (a + 1 + 1 + k) * cfg.baseDelayMs := by
        funext k
        simp only [Function.comp_apply, Nat.succ_eq_add_one]
        ring
      rw [hmap]
    · have ha' : a = cfg.maxAttempts := by omega
      have hstep : onDrop cfg ⟨p, a⟩ = (⟨.failed, a⟩, none) := by
        simp [onDrop, hp, h]
      have hmin : min (n + 1) (cfg.maxAttempts - a) = 0 := by omega
      simp [runDrops, hstep, runDrops_failed, hmin]

/-- Helper: more drops than remaining attempts leave the machine in
Failed. -/
theorem runDrops_exhausts (cfg : ReconnConfig) :
    ∀ (n : Nat) (p : ConnPhase) (a : Nat), activePhase p = true →
      a ≤ cfg.maxAttempts → cfg.maxAttempts - a < n →
      (runDrops cfg n ⟨p, a⟩).1.phase = .failed := by
  intro n
  induction n with
  | zero =>
    intro p a _ _ h
    omega
  | succ n ih =>
    intro p a hp ha h
    by_cases hcase : a + 1 ≤ cfg.maxAttempts
    · have hstep : onDrop cfg ⟨p, a⟩ =
          (⟨.reconnecting, a + 1⟩, some ((a + 1) * cfg.baseDelayMs)) := by
        simp [onDrop, hp, hcase]
      simp only [runDrops, hstep]
      exact ih .reconnecting (a + 1) rfl hcase (by omega)
    · have hstep : onDrop cfg ⟨p, a⟩ = (⟨.failed, a⟩, none) := by
        simp [onDrop, hp, hcase]
      simp [runDrops, hstep, runDrops_failed]

/-- C3: driving `n` consecutive connection drops from Connected, the
machine schedules exactly `min n maxAttempts` reconnection attempts,
the k-th with delay `(k+1) * baseDelay` — a non-decreasing linear
backoff — and once the bounded attempt count is exceeded it is in
Failed, from which a further drop changes nothing and schedules no
retry. -/
theorem reconnection_bounded_linear_backoff (cfg : ReconnConfig)
    (n a : Nat) :
    (runDrops cfg n initialConn).2 =
      (List.range (min n cfg.maxAttempts)).map
        (fun k => (k + 1) * cfg.baseDelayMs) ∧
    (runDrops cfg n initialConn).2.length = min n cfg.maxAttempts ∧
    List.Chain' (· ≤ ·) (runDrops cfg n initialConn).2 ∧
    (cfg.maxAttempts < n →
      (runDrops cfg n initialConn).1.phase = .failed) ∧
    onDrop cfg ⟨.failed, a⟩ = (⟨.failed, a⟩, none) ∧
    runDrops cfg n ⟨.failed, a⟩ = (⟨.failed, a⟩, []) := by
  have hclosed : (runDrops cfg n initialConn).2 =
      (List.range (min n cfg.maxAttempts)).map
        (fun k => (k + 1) * cfg.baseDelayMs) := by
    have h0 := runDrops_delays_closed cfg n .connected 0 rfl (Nat.zero_le _)
    simp only [Nat.sub_zero] at h0
    have hinit : runDrops cfg n initialConn =
        runDrops cfg n ⟨.connected, 0⟩ := rfl
    rw [hinit, h0]
    apply List.map_congr_left
    intro k _
    ring_nf
  refine ⟨hclosed, ?_, ?_, ?_, ?_, ?_⟩
  · simp [hclosed]
  · rw [hclosed]
    apply List.Pairwise.chain'
    apply List.Pairwise.map _ _ (List.pairwise_lt_range _)
    intro x y hxy
    exact Nat.mul_le_mul_right _ (by omega)
  · intro hlt
    exact runDrops_exhausts cfg n .connected 0 rfl (Nat.zero_le _)
      (by omega)
  · simp [onDrop, activePhase]
  · exact runDrops_failed cfg n a

/-- Witness for C3: five drops against three allowed attempts yield
exactly the three delays 100, 200, 300 and end in Failed. -/
theorem reconnection_bounded_linear_backoff_witness :
    (runDrops ⟨3, 100⟩ 5 initialConn).2 =
      (List.range (min 5 3)).map (fun k => (k + 1) * 100) ∧
    (runDrops ⟨3, 100⟩ 5 initialConn).1.phase = ConnPhase.failed :=
  ⟨(reconnection_bounded_linear_backoff ⟨3, 100⟩ 5 0).1,
   (reconnection_bounded_linear_backoff ⟨3, 100⟩ 5 0).2.2.2.1 (by decide)⟩

end OUDS
